import Mathlib

/-!
Verification development for the ZettelMetadata and ZettelMarkdown parsers
(src/parsers/zettelMetadata.c, src/parsers/zettelMarkdown.c).

The C code is shallowly embedded:
  * the YAML token callback `zmNewTokenCallback` becomes a step function on an
    explicit subparser state plus an append-only record store;
  * the tag-name escapers `zmStringEscape` / `zPercentEncode` and the render
    functions `zmRenderFieldTag` / `zRenderFieldTag` become byte-level
    (`List Nat`) functions;
  * the summary renderers become state-passing functions whose memo state
    models the C `static` locals;
  * the regex tables of `initializeZettelMarkdownParser` become per-pattern
    matchers on `List Char` and a fuel-indexed scan loop.
-/

/-! ## ZettelMetadata: kinds, roles, tables (zettelMetadata.c lines 41-141) -/

/-- enum zettelMetadataKind (zettelMetadata.c line 66). -/
inductive ZmKind where
  | K_NONE
  | K_ID
  | K_TITLE
  | K_KEYWORD
  | K_BIBLIOGRAPHY
  | K_CITEKEY
  | K_REFTITLE
deriving DecidableEq, Repr

open ZmKind

/-- enum zettelMetadataRole values (zettelMetadata.c line 41): the role is a
plain C int; R_INDEX, R_BIBLIOGRAPHY and R_REFERENCES all alias 0. -/
def R_NONE : Int := -1

def R_INDEX : Int := 0

def R_BIBLIOGRAPHY : Int := 0

def R_REFERENCES : Int := 0

structure RoleDef where
  enabled : Bool
  name : String
  description : String
deriving DecidableEq, Repr

/-- ZettelMetadataKeywordRoleTable (zettelMetadata.c line 48). -/
def ZettelMetadataKeywordRoleTable : List RoleDef :=
  [⟨true, "index", "index entries"⟩]

/-- ZettelMetadataBibliographyRoleTable (zettelMetadata.c line 54). -/
def ZettelMetadataBibliographyRoleTable : List RoleDef :=
  [⟨true, "bibliography", "bibliography files"⟩]

/-- ZettelMetadataCitekeyRoleTable (zettelMetadata.c line 60). -/
def ZettelMetadataCitekeyRoleTable : List RoleDef :=
  [⟨true, "reference", "reference entries"⟩]

structure KindDef where
  enabled : Bool
  letter : Char
  name : String
  description : String
  roles : List RoleDef
deriving DecidableEq, Repr

/-- ZettelMetadataKindTable (zettelMetadata.c line 76), indexed by ZmKind
(K_NONE has no table entry; indexing the C array at -1 never happens on the
paths modelled here). -/
def zmKindDef : ZmKind → KindDef
  | K_NONE => ⟨false, ' ', "", "", []⟩
  | K_ID => ⟨true, 'i', "id", "identifiers", []⟩
  | K_TITLE => ⟨true, 't', "title", "titles", []⟩
  | K_KEYWORD => ⟨true, 'k', "keyword", "keywords", ZettelMetadataKeywordRoleTable⟩
  | K_BIBLIOGRAPHY =>
      ⟨true, 'b', "bibliography", "bibliography files", ZettelMetadataBibliographyRoleTable⟩
  | K_CITEKEY => ⟨true, 'c', "citekey", "citation keys", ZettelMetadataCitekeyRoleTable⟩
  | K_REFTITLE => ⟨true, 'r', "reftitle", "reference titles", []⟩

/-! ## ZettelMetadata: subparser state and record store -/

/-- enum zettelMetadataScalar (zettelMetadata.c line 385). -/
inductive ZmScalar where
  | S_NONE
  | S_KEY
  | S_REFERENCE
  | S_VALUE
deriving DecidableEq, Repr

open ZmScalar

/-- The YAML token types consumed by zmNewTokenCallback (libyaml token types;
tokens the callback ignores, such as VALUE and BLOCK_ENTRY, are included so
that realistic streams can be replayed). -/
inductive YToken where
  | streamStart
  | streamEnd
  | documentStart
  | documentEnd
  | blockMappingStart
  | flowMappingStart
  | blockSequenceStart
  | flowSequenceStart
  | blockEnd
  | flowMappingEnd
  | flowSequenceEnd
  | key
  | value
  | blockEntry
  | scalar (v : String)
deriving DecidableEq, Repr

/-- The configuration surface of the metadata parser that the token
interpreter reads: the prefix parameters (NULL modelled as none) and the
enabled flags of the fields in ZettelMetadataFieldTable. -/
structure ZmConfig where
  titlePfx : Option String
  reftitlePfx : Option String
  keywordPfx : Option String
  bibliographyPfx : Option String
  fIdentifierEnabled : Bool
  fTitleEnabled : Bool
  fSummaryEnabled : Bool
deriving DecidableEq, Repr

/-- One entry of the cork-queue record store: a tag entry as made by
zmMakeTagEntry, with the two parser fields that zmClearCorkStack /
zmClearRefCorkStack may attach later (none = not attached). -/
structure ZmRecord where
  name : String
  kind : ZmKind
  role : Int
  ident : Option String
  title : Option String
deriving DecidableEq, Repr

/-- struct sZmSubparser (zettelMetadata.c line 402); the two cork stacks hold
store indices, the block-type stack holds the pushed start-token types. -/
structure ZmState where
  kind : ZmKind
  role : Int
  scalarType : ZmScalar
  blockTypeStack : List YToken
  reference : Bool
  mapping : Int
  sequence : Int
  id : Option String
  title : Option String
  citekey : Option String
  reftitle : Option String
  corkStack : List Nat
  refCorkStack : List Nat
deriving DecidableEq, Repr

/-- The static initializer of zmSubparser (zettelMetadata.c line 864). -/
def zmInitState : ZmState :=
  ⟨K_NONE, R_NONE, S_NONE, [], false, 0, 0, none, none, none, none, [], []⟩

/-- attachParserFieldToCorkEntry for the identifier field: overwrite the
record at the given cork index (out-of-range indices leave the store
unchanged; they do not occur in real runs). -/
def zmAttachIdent (store : List ZmRecord) (i : Nat) (v : String) : List ZmRecord :=
  match store[i]? with
  | some r => store.set i { r with ident := some v }
  | none => store

/-- attachParserFieldToCorkEntry for the title field. -/
def zmAttachTitle (store : List ZmRecord) (i : Nat) (v : String) : List ZmRecord :=
  match store[i]? with
  | some r => store.set i { r with title := some v }
  | none => store

/-- The body of the zmClearCorkStack loop (zettelMetadata.c line 460) for one
cork index: attach the identifier scratch value if it is non-NULL and the
identifier or summary field is enabled, likewise the title scratch value. -/
def zmAttachPending (cfg : ZmConfig) (oid otitle : Option String)
    (store : List ZmRecord) (i : Nat) : List ZmRecord :=
  let s1 := match oid with
    | some v =>
        if cfg.fIdentifierEnabled || cfg.fSummaryEnabled then zmAttachIdent store i v
        else store
    | none => store
  match otitle with
  | some v => if cfg.fTitleEnabled || cfg.fSummaryEnabled then zmAttachTitle s1 i v else s1
  | none => s1

def zmClearStackAux (cfg : ZmConfig) (oid otitle : Option String) :
    List Nat → List ZmRecord → List ZmRecord
  | [], store => store
  | i :: rest, store => zmClearStackAux cfg oid otitle rest (zmAttachPending cfg oid otitle store i)

/-- zmClearCorkStack (zettelMetadata.c line 460): walk the document-level cork
stack, attach the id/title scratch values, and leave the stack empty. -/
def zmClearCorkStack (cfg : ZmConfig) (st : ZmState) (store : List ZmRecord) :
    ZmState × List ZmRecord :=
  ({ st with corkStack := [] }, zmClearStackAux cfg st.id st.title st.corkStack store)

/-- zmClearRefCorkStack (zettelMetadata.c line 485): walk the reference-level
cork stack, attach the citekey/reftitle scratch values, and leave the stack
empty. -/
def zmClearRefCorkStack (cfg : ZmConfig) (st : ZmState) (store : List ZmRecord) :
    ZmState × List ZmRecord :=
  ({ st with refCorkStack := [] }, zmClearStackAux cfg st.citekey st.reftitle st.refCorkStack store)

/-- zmResetSubparser (zettelMetadata.c line 510): clear everything; the two
clear calls at the end attach nothing because the scratch values were just
freed. -/
def zmResetSubparser (st : ZmState) (store : List ZmRecord) : ZmState × List ZmRecord :=
  ({ st with
      kind := K_NONE, role := R_NONE, scalarType := S_NONE, blockTypeStack := [],
      reference := false, mapping := 0, sequence := 0,
      id := none, title := none, citekey := none, reftitle := none,
      corkStack := [], refCorkStack := [] }, store)

/-- The prefix prepending of zmMakeTagEntry (zettelMetadata.c line 558): a
configured non-empty prefix is prepended for title/keyword/bibliography/
reftitle tags; citation keys always get "@" prepended. -/
def zmTagName (cfg : ZmConfig) (kind : ZmKind) (v : String) : String :=
  match kind with
  | K_TITLE => if (cfg.titlePfx.getD "").length > 0 then cfg.titlePfx.getD "" ++ v else v
  | K_KEYWORD => if (cfg.keywordPfx.getD "").length > 0 then cfg.keywordPfx.getD "" ++ v else v
  | K_BIBLIOGRAPHY =>
      if (cfg.bibliographyPfx.getD "").length > 0 then cfg.bibliographyPfx.getD "" ++ v else v
  | K_CITEKEY => "@" ++ v
  | K_REFTITLE =>
      if (cfg.reftitlePfx.getD "").length > 0 then cfg.reftitlePfx.getD "" ++ v else v
  | _ => v

/-- zmPushTag (zettelMetadata.c line 441): push the new cork index onto the
reference stack when the reference latch is set, else onto the document
stack. -/
def zmPushTag (st : ZmState) (corkIndex : Nat) : ZmState :=
  if st.reference then { st with refCorkStack := corkIndex :: st.refCorkStack }
  else { st with corkStack := corkIndex :: st.corkStack }

/-- zmMakeTagEntry (zettelMetadata.c line 553): prepend the prefix, then, if
the kind is enabled, make a plain tag entry for role R_NONE or a reference
tag entry for an enabled in-range role, and push its cork index. -/
def zmMakeTagEntry (cfg : ZmConfig) (st : ZmState) (store : List ZmRecord) (v : String) :
    ZmState × List ZmRecord :=
  let value := zmTagName cfg st.kind v
  if (zmKindDef st.kind).enabled then
    let entry : Option ZmRecord :=
      if st.role = R_NONE then some ⟨value, st.kind, st.role, none, none⟩
      else if 0 ≤ st.role ∧ st.role.toNat < (zmKindDef st.kind).roles.length ∧
          ((zmKindDef st.kind).roles.getD st.role.toNat ⟨false, "", ""⟩).enabled then
        some ⟨value, st.kind, st.role, none, none⟩
      else none
    match entry with
    | some r => (zmPushTag st store.length, store ++ [r])
    | none => (st, store)
  else (st, store)

/-- The scalar-token branch of zmNewTokenCallback (zettelMetadata.c line 727). -/
def zmScalarStep (cfg : ZmConfig) (st : ZmState) (store : List ZmRecord) (v : String) :
    ZmState × List ZmRecord :=
  if st.scalarType = S_KEY then
    if v = "id" then ({ st with scalarType := S_VALUE, kind := K_ID, role := R_NONE }, store)
    else if v = "title" then
      ({ st with scalarType := S_VALUE, kind := K_TITLE, role := R_NONE }, store)
    else if v = "keywords" then
      ({ st with scalarType := S_VALUE, kind := K_KEYWORD, role := R_INDEX }, store)
    else if v = "bibliography" then
      ({ st with scalarType := S_VALUE, kind := K_BIBLIOGRAPHY, role := R_BIBLIOGRAPHY }, store)
    else if v = "nocite" then
      ({ st with scalarType := S_VALUE, kind := K_CITEKEY, role := R_REFERENCES }, store)
    else if v = "references" then
      ({ st with scalarType := S_NONE, kind := K_NONE, role := R_NONE, reference := true }, store)
    else ({ st with kind := K_NONE, role := R_NONE }, store)
  else if st.scalarType = S_REFERENCE then
    if v = "id" then ({ st with scalarType := S_VALUE, kind := K_CITEKEY, role := R_NONE }, store)
    else if v = "title" then
      ({ st with scalarType := S_VALUE, kind := K_REFTITLE, role := R_NONE }, store)
    else ({ st with kind := K_NONE, role := R_NONE }, store)
  else if st.scalarType = S_VALUE ∧ (st.mapping = 1 ∨ (st.reference ∧ st.mapping = 2)) then
    let st :=
      if st.kind = K_ID then { st with id := some v }
      else if st.kind = K_TITLE then { st with title := some v }
      else if st.reference ∧ st.kind = K_CITEKEY then { st with citekey := some v }
      else if st.reference ∧ st.kind = K_REFTITLE then { st with reftitle := some v }
      else st
    zmMakeTagEntry cfg st store v
  else (st, store)

/-- zmNewTokenCallback (zettelMetadata.c line 664) as one step of a state
machine over YAML tokens.  BLOCK_END / FLOW_*_END on an empty block-type
stack dereference a null pointer in C; such malformed streams are modelled as
a no-operation pop and never arise in the balanced streams used below. -/
def zmStep (cfg : ZmConfig) (p : ZmState × List ZmRecord) (t : YToken) :
    ZmState × List ZmRecord :=
  let st := p.1
  let store := p.2
  match t with
  | .streamStart => zmResetSubparser st store
  | .streamEnd | .documentStart | .documentEnd =>
      let q := zmClearCorkStack cfg st store
      zmClearRefCorkStack cfg q.1 q.2
  | .blockMappingStart =>
      ({ st with blockTypeStack := .blockMappingStart :: st.blockTypeStack,
                 mapping := st.mapping + 1 }, store)
  | .flowMappingStart =>
      ({ st with blockTypeStack := .flowMappingStart :: st.blockTypeStack,
                 mapping := st.mapping + 1 }, store)
  | .blockSequenceStart =>
      ({ st with blockTypeStack := .blockSequenceStart :: st.blockTypeStack,
                 sequence := st.sequence + 1 }, store)
  | .flowSequenceStart =>
      ({ st with blockTypeStack := .flowSequenceStart :: st.blockTypeStack,
                 sequence := st.sequence + 1 }, store)
  | .blockEnd =>
      match st.blockTypeStack with
      | [] => (st, store)
      | popped :: rest =>
          if popped = .blockMappingStart then
            let st := { st with blockTypeStack := rest, mapping := st.mapping - 1 }
            if st.reference ∧ st.mapping < 2 ∧ st.sequence < 2 then
              zmClearRefCorkStack cfg st store
            else (st, store)
          else ({ st with blockTypeStack := rest, sequence := st.sequence - 1 }, store)
  | .flowMappingEnd =>
      let st := { st with blockTypeStack := st.blockTypeStack.tail,
                          mapping := st.mapping - 1 }
      if st.mapping < 2 ∧ st.sequence < 2 then zmClearRefCorkStack cfg st store
      else (st, store)
  | .flowSequenceEnd =>
      ({ st with blockTypeStack := st.blockTypeStack.tail,
                 sequence := st.sequence - 1 }, store)
  | .key =>
      if st.mapping = 1 then
        ({ st with scalarType := if st.sequence = 0 then S_KEY else S_NONE,
                   reference := false }, store)
      else if st.reference ∧ st.mapping = 2 ∧ st.sequence < 2 then
        ({ st with scalarType := S_REFERENCE }, store)
      else (st, store)
  | .value | .blockEntry => (st, store)
  | .scalar v => zmScalarStep cfg st store v

/-- Replay a whole token stream from the initial subparser state with an
empty record store. -/
def zmRun (cfg : ZmConfig) (tokens : List YToken) : List ZmRecord :=
  (tokens.foldl (zmStep cfg) (zmInitState, [])).2

/-! ## Tag Name Encoders (zmStringEscape / zmRenderFieldTag, zettelMetadata.c
lines 212-363; zPercentEncode / zRenderFieldTag, zettelMarkdown.c lines
119-165).  Names are byte strings, modelled as `List Nat`. -/

/-- The hex digit table "0123456789abcdef" (both escape functions). -/
def hexDigit (n : Nat) : Nat := if n < 10 then 0x30 + n else 0x57 + n

/-- One byte of zmStringEscape (zettelMetadata.c line 212): bytes outside
0x21-0x7E (signed-char comparison: every byte >= 0x80 is escaped too) and the
backslash are escaped as backslash-x plus two hex digits; `force` escapes
unconditionally. -/
def zmEscByte (force : Bool) (b : Nat) : List Nat :=
  if force || b < 0x21 || 0x7E < b || b = 0x5C then
    [0x5C, 0x78, hexDigit (b / 16 % 16), hexDigit (b % 16)]
  else [b]

/-- zmStringEscape over a whole byte string with force = false. -/
def zmStringEscape (s : List Nat) : List Nat := s.flatMap (zmEscByte false)

/-- One byte of zPercentEncode (zettelMarkdown.c line 119): bytes outside
0x21-0x7E and the percent sign itself are escaped as a percent sign plus two
hex digits. -/
def zEncByte (force : Bool) (b : Nat) : List Nat :=
  if force || b < 0x21 || 0x7E < b || b = 0x25 then
    [0x25, hexDigit (b / 16 % 16), hexDigit (b % 16)]
  else [b]

/-- zPercentEncode over a whole byte string with force = false. -/
def zPercentEncode (s : List Nat) : List Nat := s.flatMap (zEncByte false)

/-- zRenderFieldTag (zettelMarkdown.c line 145): a leading exclamation mark
is force-encoded, the rest of the name is percent-encoded. -/
def zRenderFieldTag (name : List Nat) : List Nat :=
  match name with
  | [] => []
  | c :: rest => if c = 0x21 then zEncByte true c ++ zPercentEncode rest
      else zPercentEncode (c :: rest)

/-- The prefix configuration read by zmRenderFieldTag, at byte level
(none = NULL parameter). -/
structure ZmEncConfig where
  titlePfx : Option (List Nat)
  reftitlePfx : Option (List Nat)
  keywordPfx : Option (List Nat)
  bibliographyPfx : Option (List Nat)
deriving DecidableEq, Repr

/-- A configured prefix matches when it is non-empty and a prefix of the
name (strncmp of the prefix length returning 0). -/
def pfxMatches (p : Option (List Nat)) (name : List Nat) : Bool :=
  (p.getD []).length > 0 && (p.getD []).isPrefixOf name

/-- The escaping branch of zmRenderFieldTag (zettelMetadata.c lines 249-349)
for one kind, given the kind's own prefix and the three prefixes of the other
kinds: the own prefix is copied verbatim and the rest escaped; if another
prefix matches, the first byte is force-escaped; otherwise a leading
exclamation mark is force-escaped; the remainder is escaped with force off. -/
def zmRenderEsc (own : Option (List Nat)) (others : List (Option (List Nat)))
    (name : List Nat) : List Nat :=
  if pfxMatches own name then
    (own.getD []) ++ zmStringEscape (name.drop (own.getD []).length)
  else if others.any (fun p => pfxMatches p name) then
    match name with
    | c :: rest => zmEscByte true c ++ zmStringEscape rest
    | [] => []
  else
    match name with
    | c :: rest => if c = 0x21 then zmEscByte true c ++ zmStringEscape rest
        else zmStringEscape (c :: rest)
    | [] => []

/-- zmRenderFieldTag (zettelMetadata.c line 240): titles, reference titles,
keywords and bibliography files are escaped (with the prefix handling of
their kind); identifiers and citation keys are passed through unescaped (the
default branch only logs a diagnostic). -/
def zmRenderFieldTag (cfg : ZmEncConfig) (kind : ZmKind) (name : List Nat) : List Nat :=
  match kind with
  | K_TITLE => zmRenderEsc cfg.titlePfx [cfg.reftitlePfx, cfg.keywordPfx, cfg.bibliographyPfx] name
  | K_REFTITLE =>
      zmRenderEsc cfg.reftitlePfx [cfg.titlePfx, cfg.keywordPfx, cfg.bibliographyPfx] name
  | K_KEYWORD =>
      zmRenderEsc cfg.keywordPfx [cfg.titlePfx, cfg.reftitlePfx, cfg.bibliographyPfx] name
  | K_BIBLIOGRAPHY =>
      zmRenderEsc cfg.bibliographyPfx [cfg.titlePfx, cfg.reftitlePfx, cfg.keywordPfx] name
  | _ => name

/-- Decoder for the backslash-x escape format of zmStringEscape: every
backslash-x-hex-hex block decodes to its byte, everything else to itself.
Used to prove injectivity of the encoding. -/
def unhex (c : Nat) : Nat := if c < 0x3A then c - 0x30 else c - 0x57

def zmDecode : List Nat → List Nat
  | [] => []
  | c :: d :: h :: l :: rest =>
      if c = 0x5C ∧ d = 0x78 then (unhex h * 16 + unhex l) :: zmDecode rest
      else c :: zmDecode (d :: h :: l :: rest)
  | c :: rest => c :: zmDecode rest

/-- The prefix of the record's own kind, as skipped verbatim by
zmRenderFieldTag; kinds outside the escaping branch have none. -/
def zmOwnPfx (cfg : ZmEncConfig) : ZmKind → Option (List Nat)
  | K_TITLE => cfg.titlePfx
  | K_REFTITLE => cfg.reftitlePfx
  | K_KEYWORD => cfg.keywordPfx
  | K_BIBLIOGRAPHY => cfg.bibliographyPfx
  | _ => none

/-! ## Summary renderers (zmRenderFieldSummary, zettelMetadata.c line 365;
zRenderFieldSummary, zettelMarkdown.c line 167).  The external template
engine is out of scope; a constructed template is modelled as the format
string it was built from (fmtNew), and the C `static` memo variables as
explicit state.  Each call returns the new memo state, the template used for
this record, and how many templates were newly constructed. -/

structure FmtElement where
  fmtString : String
deriving DecidableEq, Repr

/-- fmtNew: build a template from a format string. -/
def fmtNew (s : String) : FmtElement := ⟨s⟩

/-- The two static template slots of zRenderFieldSummary. -/
structure ZSummaryMemo where
  defFmt : Option FmtElement
  refFmt : Option FmtElement
deriving DecidableEq, Repr

/-- zRenderFieldSummary (zettelMarkdown.c line 167): records with role bits
use the reference-summary template, records without use the
definition-summary template; each template is built on first use and cached
in a static variable. -/
def zRenderFieldSummary (zSummaryDefFormat zSummaryRefFormat : String)
    (memo : ZSummaryMemo) (roleBits : Nat) : ZSummaryMemo × FmtElement × Nat :=
  if roleBits ≠ 0 then
    match memo.refFmt with
    | some f => (memo, f, 0)
    | none => ({ memo with refFmt := some (fmtNew zSummaryRefFormat) },
        fmtNew zSummaryRefFormat, 1)
  else
    match memo.defFmt with
    | some f => (memo, f, 0)
    | none => ({ memo with defFmt := some (fmtNew zSummaryDefFormat) },
        fmtNew zSummaryDefFormat, 1)

/-- zmRenderFieldSummary (zettelMetadata.c line 365): one single summary
template, built from zmSummaryFormat on first use and cached; the record
(its role bits included) plays no part in choosing the template. -/
def zmRenderFieldSummary (zmSummaryFormat : String) (memo : Option FmtElement)
    (_roleBits : Nat) : Option FmtElement × FmtElement × Nat :=
  match memo with
  | some f => (memo, f, 0)
  | none => (some (fmtNew zmSummaryFormat), fmtNew zmSummaryFormat, 1)

/-! ## ZettelMarkdown: kinds, roles (zettelMarkdown.c lines 28-51) -/

/-- ZettelMarkdownWikilinkRoleTable (zettelMarkdown.c line 28): the wikilink
kind has exactly one role, "ref". -/
def ZettelMarkdownWikilinkRoleTable : List RoleDef :=
  [⟨true, "ref", "references"⟩]

/-- ZettelMarkdownCitekeyRoleTable (zettelMarkdown.c line 34). -/
def ZettelMarkdownCitekeyRoleTable : List RoleDef :=
  [⟨true, "bibliography", "bibliography entries"⟩]

/-- The two kinds of ZettelMarkdownKindTable (zettelMarkdown.c line 40). -/
inductive MdKind where
  | wikilink
  | citekey
deriving DecidableEq, Repr

/-- A reference record made by the text scanner: kind, role index into the
kind's role table, and the captured tag name. -/
structure MdTag where
  kind : MdKind
  role : Nat
  name : List Char
deriving DecidableEq, Repr

/-! ## ZettelMarkdown: pattern matchers (initializeZettelMarkdownParser,
zettelMarkdown.c lines 209-372).  Each regex of the multi-table becomes a
matcher on `List Char` returning the remaining input after the match (plus
the capture for the two record-producing patterns).  Comments quote the
source regex. -/

def backtickChar : Char := Char.ofNat 96

def isWsCh (c : Char) : Bool := c = ' ' || c = '\t'

/-- Match [^\n]*\n : the rest of the current line including its newline;
none when no newline remains. -/
def afterNl : List Char → Option (List Char)
  | [] => none
  | c :: rest => if c = '\n' then some rest else afterNl rest

/-- The optional trailing (\n-+\n)? shared by most main-table patterns (skip
level-two setext headers). -/
def setextOpt (l : List Char) : List Char :=
  match l with
  | '\n' :: rest =>
      let d := rest.takeWhile (fun c => c = '-')
      if d.length > 0 then
        match rest.drop d.length with
        | '\n' :: r2 => r2
        | _ => l
      else l
  | _ => l

/-- The tail ([ \t][^\n]*)?\n shared by the metadata delimiter patterns. -/
def metaTail : List Char → Option (List Char)
  | '\n' :: r => some r
  | c :: r => if isWsCh c then afterNl r else none
  | [] => none

/-- "^---([ \t][^\n]*)?\n" (enter or leave a YAML metadata block). -/
def metaOpenMatch : List Char → Option (List Char)
  | '-' :: '-' :: '-' :: rest => metaTail rest
  | _ => none

/-- "^\.\.\.([ \t][^\n]*)?\n" (leave a YAML metadata block). -/
def metaDotsMatch : List Char → Option (List Char)
  | '.' :: '.' :: '.' :: rest => metaTail rest
  | _ => none

/-- "^\t [^\n]*\n" (enter a verbatim block; the source string holds a literal
tab followed by a space). -/
def verbatim1Match : List Char → Option (List Char)
  | '\t' :: ' ' :: rest => afterNl rest
  | _ => none

/-- "^\t[^\n]*\n" (enter a verbatim block). -/
def verbatim2Match : List Char → Option (List Char)
  | '\t' :: rest => afterNl rest
  | _ => none

/-- "^[ \t]*~~~~*[^~\n]*\n" (enter a fenced code block: three or more
tildes). -/
def fencedOpenMatch (l : List Char) : Option (List Char) :=
  let t1 := l.drop (l.takeWhile isWsCh).length
  let run := t1.takeWhile (fun c => c = '~')
  if run.length ≥ 3 then
    let t2 := t1.drop run.length
    let body := t2.takeWhile (fun c => c ≠ '~' && c ≠ '\n')
    match t2.drop body.length with
    | '\n' :: r => some r
    | _ => none
  else none

/-- "^[ \t]*````*[^`\n]*\n" (enter a backtick code block: three or more
backticks). -/
def btOpenMatch (l : List Char) : Option (List Char) :=
  let t1 := l.drop (l.takeWhile isWsCh).length
  let run := t1.takeWhile (fun c => c = backtickChar)
  if run.length ≥ 3 then
    let t2 := t1.drop run.length
    let body := t2.takeWhile (fun c => c ≠ backtickChar && c ≠ '\n')
    match t2.drop body.length with
    | '\n' :: r => some r
    | _ => none
  else none

/-- Decomposability by ([^\n]|\n[^\n])+ : every newline is immediately
followed by a non-newline character (so the span neither ends in a newline
nor contains two consecutive newlines). -/
def spanOk : List Char → Bool
  | [] => true
  | c :: rest =>
      if c = '\n' then
        match rest with
        | [] => false
        | d :: _ => if d = '\n' then false else spanOk rest
      else spanOk rest

/-- "^``([^\n]|\n[^\n])+``(\n-+\n)?" (skip double-backtick verbatim text):
the greedy inner group takes the longest valid span followed by a double
backtick. -/
def dbtSpanMatch (l : List Char) : Option (List Char) :=
  match l with
  | c1 :: c2 :: rest =>
      if c1 = backtickChar && c2 = backtickChar then
        match (List.range (rest.length + 1)).reverse.find?
            (fun i => decide (1 ≤ i) && spanOk (rest.take i) &&
              [backtickChar, backtickChar].isPrefixOf (rest.drop i)) with
        | some i => some (setextOpt (rest.drop (i + 2)))
        | none => none
      else none
  | _ => none

/-- "^`([^`\n]|\n[^`\n])+`(\n-+\n)?" (skip single-backtick verbatim text):
the inner group cannot contain a backtick, so it is the run up to the next
backtick, valid when no newline lacks a following character. -/
def btSpanMatch (l : List Char) : Option (List Char) :=
  match l with
  | c1 :: rest =>
      if c1 = backtickChar then
        let t := rest.takeWhile (fun c => c ≠ backtickChar)
        if t.length ≥ 1 && spanOk t then
          match rest.drop t.length with
          | c2 :: r2 => if c2 = backtickChar then some (setextOpt r2) else none
          | [] => none
        else none
      else none
  | _ => none

/-- "^<!--" (enter an HTML comment). -/
def commentOpenMatch : List Char → Option (List Char)
  | '<' :: '!' :: '-' :: '-' :: rest => some rest
  | _ => none

/-- "^\[\[([^]]+)\]\](\n-+\n)?" (wiki link): returns the capture and the
remaining input. -/
def wikiLinkMatch (l : List Char) : Option (List Char × List Char) :=
  match l with
  | '[' :: '[' :: rest =>
      let t := rest.takeWhile (fun c => c ≠ ']')
      if t.length ≥ 1 then
        match rest.drop t.length with
        | ']' :: ']' :: r2 => some (t, setextOpt r2)
        | _ => none
      else none
  | _ => none

def isAlnumUs (c : Char) : Bool :=
  ('a' ≤ c && c ≤ 'z') || ('A' ≤ c && c ≤ 'Z') || ('0' ≤ c && c ≤ '9') || c = '_'

/-- "^[ \t]*\(@[a-zA-Z0-9_-]*\)(\n-+\n)?" (skip numbered examples). -/
def numberedExMatch (l : List Char) : Option (List Char) :=
  match l.drop (l.takeWhile isWsCh).length with
  | '(' :: '@' :: rest =>
      let t := rest.takeWhile (fun c => isAlnumUs c || c = '-')
      match rest.drop t.length with
      | ')' :: r2 => some (setextOpt r2)
      | _ => none
  | _ => none

/-! A small backtracking regex engine, used for the two patterns whose
alternations with quoted atoms do not reduce to simple scans (the email and
mailto skip patterns).  `matchRE` returns the possible remainders after a
match in greedy (preferred-first) order. -/

inductive RE where
  | eps
  | chr (c : Char)
  | cls (p : Char → Bool)
  | seq (a b : RE)
  | alt (a b : RE)
  | star (a : RE)

def matchRE (fuel : Nat) (re : RE) (l : List Char) : List (List Char) :=
  match fuel with
  | 0 => []
  | fuel + 1 =>
    match re with
    | .eps => [l]
    | .chr c =>
        match l with
        | x :: xs => if x = c then [xs] else []
        | [] => []
    | .cls p =>
        match l with
        | x :: xs => if p x then [xs] else []
        | [] => []
    | .seq a b => (matchRE fuel a l).flatMap (matchRE fuel b)
    | .alt a b => matchRE fuel a l ++ matchRE fuel b l
    | .star a =>
        ((matchRE fuel a l).filter (fun r => r.length < l.length)).flatMap
          (matchRE fuel (.star a)) ++ [l]

def REplus (a : RE) : RE := .seq a (.star a)

/-- [^@> \t\n] -/
def emailAtomCls (c : Char) : Bool := !(c = '@' || c = '>' || c = ' ' || c = '\t' || c = '\n')

/-- [^@>\t\n] -/
def emailQCls (c : Char) : Bool := !(c = '@' || c = '>' || c = '\t' || c = '\n')

/-- ([^@> \t\n]|"[^@>\t\n]*")+(\.([^@> \t\n]|"[^@>\t\n]"))*@ : the body
shared by the email and mailto skip patterns. -/
def emailCore : RE :=
  .seq
    (REplus (.alt (.cls emailAtomCls)
      (.seq (.chr '"') (.seq (.star (.cls emailQCls)) (.chr '"')))))
    (.seq
      (.star (.seq (.chr '.') (.alt (.cls emailAtomCls)
        (.seq (.chr '"') (.seq (.cls emailQCls) (.chr '"'))))))
      (.chr '@'))

/-- "^<([^@> \t\n]|\"[^@>\t\n]*\")+(\.([^@> \t\n]|\"[^@>\t\n]\"))*@(\n-+\n)?"
(skip email addresses). -/
def emailMatch (l : List Char) : Option (List Char) :=
  match l with
  | '<' :: rest =>
      match matchRE ((rest.length + 2) * 64) emailCore rest with
      | r :: _ => some (setextOpt r)
      | [] => none
  | _ => none

/-- "^mailto:([^@> \t\n]|\"[^@>\t\n]*\")+(\.([^@> \t\n]|\"[^@>\t\n]\"))*@(\n-+\n)?"
(skip mailto links). -/
def mailtoMatch (l : List Char) : Option (List Char) :=
  match l with
  | 'm' :: 'a' :: 'i' :: 'l' :: 't' :: 'o' :: ':' :: rest =>
      match matchRE ((rest.length + 2) * 64) emailCore rest with
      | r :: _ => some (setextOpt r)
      | [] => none
  | _ => none

/-- [a-zA-Z0-9_:.#$%&-+?<>~/] : the tail class of the Pandoc citation
pattern (&-+ is the character range from ampersand to plus). -/
def citeTailCls (c : Char) : Bool :=
  isAlnumUs c || c = ':' || c = '.' || c = '#' || c = '$' || c = '%' ||
    ('&' ≤ c && c ≤ '+') || c = '?' || c = '<' || c = '>' || c = '~' || c = '/'

/-- "^@([a-zA-Z0-9_][a-zA-Z0-9_:.#$%&-+?<>~/]*)(\n-+\n)?" (Pandoc citation):
returns the capture (without the at sign) and the remaining input. -/
def citeMatch (l : List Char) : Option (List Char × List Char) :=
  match l with
  | '@' :: c :: r2 =>
      if isAlnumUs c then
        let t := r2.takeWhile citeTailCls
        some (c :: t, setextOpt (r2.drop t.length))
      else none
  | _ => none

/-- "^\\[^\n](\n-+\n)?" (skip backslash escapes). -/
def bsEscMatch : List Char → Option (List Char)
  | '\\' :: c :: rest => if c ≠ '\n' then some (setextOpt rest) else none
  | _ => none

/-- The single-character fallback class [[<`mn@\\]. -/
def skipCls (c : Char) : Bool :=
  c = '[' || c = '<' || c = backtickChar || c = 'm' || c = 'n' || c = '@' || c = '\\'

/-- "^[[<`mn@\\](\n-+\n)?" (skip one special character). -/
def singleCharMatch : List Char → Option (List Char)
  | c :: rest => if skipCls c then some (setextOpt rest) else none
  | [] => none

/-- "^[^[<`mn@\\\n]+(\n-+\n)?" (skip a run of ordinary characters). -/
def chunkMatch (l : List Char) : Option (List Char) :=
  let t := l.takeWhile (fun c => !(skipCls c || c = '\n'))
  if t.length ≥ 1 then some (setextOpt (l.drop t.length)) else none

/-- "^[ \t]*~~~~*[ \t]*\n" (leave a fenced code block). -/
def fencedCloseMatch (l : List Char) : Option (List Char) :=
  let t1 := l.drop (l.takeWhile isWsCh).length
  let run := t1.takeWhile (fun c => c = '~')
  if run.length ≥ 3 then
    let t2 := t1.drop run.length
    match t2.drop (t2.takeWhile isWsCh).length with
    | '\n' :: r => some r
    | _ => none
  else none

/-- "^[ \t]*````*[ \t]*\n" (leave a backtick code block). -/
def btCloseMatch (l : List Char) : Option (List Char) :=
  let t1 := l.drop (l.takeWhile isWsCh).length
  let run := t1.takeWhile (fun c => c = backtickChar)
  if run.length ≥ 3 then
    let t2 := t1.drop run.length
    match t2.drop (t2.takeWhile isWsCh).length with
    | '\n' :: r => some r
    | _ => none
  else none

/-- "^ {0,3}[^ \t\n][^\n]*\n" (leave a verbatim block, reprocessing the
matched line from its start in the main table). -/
def verbatimLeaveMatch (l : List Char) : Bool :=
  let sp := l.takeWhile (fun c => c = ' ')
  sp.length ≤ 3 &&
    (match l.drop sp.length with
     | c :: r => !(c = ' ' || c = '\t' || c = '\n') && (afterNl r).isSome
     | [] => false)

/-- "^ {4}[^\n]*\n" (stay in a verbatim block). -/
def verbatimSkip4 : List Char → Option (List Char)
  | ' ' :: ' ' :: ' ' :: ' ' :: rest => afterNl rest
  | _ => none

/-- "^[ \t]*\n" (blank line inside a verbatim block). -/
def verbatimBlank (l : List Char) : Option (List Char) :=
  match l.drop (l.takeWhile isWsCh).length with
  | '\n' :: r => some r
  | _ => none

/-- "^--[ \t]*>(\n-+\n)?" (leave an HTML comment). -/
def commentCloseMatch : List Char → Option (List Char)
  | '-' :: '-' :: rest =>
      match rest.drop (rest.takeWhile isWsCh).length with
      | '>' :: r => some (setextOpt r)
      | _ => none
  | _ => none

/-! ## ZettelMarkdown: the scan loop -/

/-- The regex tables registered by initializeZettelMarkdownParser. -/
inductive Region where
  | main
  | rest
  | metadata
  | verbatim
  | fencedcode
  | backtickcode
  | comment
deriving DecidableEq, Repr

/-- The outcome of trying the patterns of one table at the current position:
continue in some region with some input consumed and some records emitted,
or stop the scan ({tquit}/{quit}, or end of input). -/
inductive ScanAct where
  | cont (reg : Region) (remaining : List Char) (recs : List MdTag)
  | stop
deriving DecidableEq, Repr

/-- The main table (zettelMarkdown.c lines 219-293), patterns tried in
declaration order.  Region-entering patterns for verbatim use
_advanceTo=0start, so the input is handed unconsumed to the verbatim
table. -/
def mainStep (l : List Char) : ScanAct :=
  match metaOpenMatch l with
  | some r => .cont .metadata r []
  | none =>
  match verbatim1Match l with
  | some _ => .cont .verbatim l []
  | none =>
  match verbatim2Match l with
  | some _ => .cont .verbatim l []
  | none =>
  match fencedOpenMatch l with
  | some r => .cont .fencedcode r []
  | none =>
  match btOpenMatch l with
  | some r => .cont .backtickcode r []
  | none =>
  match dbtSpanMatch l with
  | some r => .cont .main r []
  | none =>
  match btSpanMatch l with
  | some r => .cont .main r []
  | none =>
  match commentOpenMatch l with
  | some r => .cont .comment r []
  | none =>
  match wikiLinkMatch l with
  | some p => .cont .main p.2 [⟨.wikilink, 0, p.1⟩]
  | none =>
  match numberedExMatch l with
  | some r => .cont .main r []
  | none =>
  match emailMatch l with
  | some r => .cont .main r []
  | none =>
  match mailtoMatch l with
  | some r => .cont .main r []
  | none =>
  match citeMatch l with
  | some p => .cont .main p.2 [⟨.citekey, 0, '@' :: p.1⟩]
  | none =>
  match bsEscMatch l with
  | some r => .cont .main r []
  | none =>
  match singleCharMatch l with
  | some r => .cont .main r []
  | none =>
  match chunkMatch l with
  | some r => .cont .main r []
  | none =>
  match afterNl l with
  | some r => .cont .main r []
  | none => .stop

/-- The rest table (zettelMarkdown.c lines 296-301). -/
def restStep (l : List Char) : ScanAct :=
  match afterNl l with
  | some r => .cont .rest r []
  | none => .stop

/-- The metadata table (zettelMarkdown.c lines 304-315). -/
def metadataStep (l : List Char) : ScanAct :=
  match metaOpenMatch l with
  | some r => .cont .main r []
  | none =>
  match metaDotsMatch l with
  | some r => .cont .main r []
  | none =>
  match afterNl l with
  | some r => .cont .metadata r []
  | none => .stop

/-- The verbatim table (zettelMarkdown.c lines 318-338); the leave pattern
reprocesses the matched line from its start in the main table. -/
def verbatimStep (l : List Char) : ScanAct :=
  if verbatimLeaveMatch l then .cont .main l []
  else match verbatimSkip4 l with
  | some r => .cont .verbatim r []
  | none =>
  if l.take 4 = [' ', ' ', ' ', ' '] then .stop
  else match verbatim2Match l with
  | some r => .cont .verbatim r []
  | none =>
  if l.take 1 = ['\t'] then .stop
  else match verbatimBlank l with
  | some r => .cont .verbatim r []
  | none => .stop

/-- The fencedcode table (zettelMarkdown.c lines 341-349). -/
def fencedStep (l : List Char) : ScanAct :=
  match fencedCloseMatch l with
  | some r => .cont .main r []
  | none =>
  match afterNl l with
  | some r => .cont .fencedcode r []
  | none => .stop

/-- The backtickcode table (zettelMarkdown.c lines 352-360). -/
def backtickStep (l : List Char) : ScanAct :=
  match btCloseMatch l with
  | some r => .cont .main r []
  | none =>
  match afterNl l with
  | some r => .cont .backtickcode r []
  | none => .stop

/-- The comment table (zettelMarkdown.c lines 363-371). -/
def commentStep (l : List Char) : ScanAct :=
  match commentCloseMatch l with
  | some r => .cont .main r []
  | none =>
    let t := l.takeWhile (fun c => c ≠ '-')
    if t.length ≥ 1 then .cont .comment (l.drop t.length) []
    else
      let d := l.takeWhile (fun c => c = '-')
      if d.length ≥ 1 then .cont .comment (l.drop d.length) []
      else .stop

def regionStep : Region → List Char → ScanAct
  | .main => mainStep
  | .rest => restStep
  | .metadata => metadataStep
  | .verbatim => verbatimStep
  | .fencedcode => fencedStep
  | .backtickcode => backtickStep
  | .comment => commentStep

/-- The scan loop: run the current region's table on the unconsumed input,
accumulating emitted records in document order, until the input is exhausted
or a quit action fires.  Fuel only guards the two non-consuming
verbatim-boundary transitions; any fuel bound of at least twice the input
length plus one is enough. -/
def zScan : Nat → Region → List Char → List MdTag → List MdTag
  | 0, _, _, acc => acc
  | fuel + 1, reg, l, acc =>
      if l.isEmpty then acc
      else
        match regionStep reg l with
        | .cont reg2 l2 recs => zScan fuel reg2 l2 (acc ++ recs)
        | .stop => acc

/-! ## Auxiliary definitions used by the theorem statements -/

/-- A configuration with no prefixes configured and the identifier, title and
summary fields enabled (ctags command line: --fields-ZettelMetadata=+...). -/
def zmCfgAllOn : ZmConfig := ⟨none, none, none, none, true, true, true⟩

/-- The libyaml token stream of the front-matter document `nocite: <v>`
(one top-level block mapping with a single key/value pair; the value is one
scalar token). -/
def zmNociteStream (v : String) : List YToken :=
  [.streamStart, .blockMappingStart, .key, .scalar "nocite", .value, .scalar v,
   .blockEnd, .streamEnd]

/-- The libyaml token stream of a `references:` block with two list entries,
each a block sub-mapping with its own id and title (entries at the
indentation of the key, so no block-sequence-start token is produced). -/
def zmRefPairStream (a A b B : String) : List YToken :=
  [.streamStart, .blockMappingStart, .key, .scalar "references", .value,
   .blockEntry, .blockMappingStart, .key, .scalar "id", .value, .scalar a,
   .key, .scalar "title", .value, .scalar A, .blockEnd,
   .blockEntry, .blockMappingStart, .key, .scalar "id", .value, .scalar b,
   .key, .scalar "title", .value, .scalar B, .blockEnd,
   .blockEnd, .streamEnd]

/-- The libyaml token stream of a `references:` block whose first entry has
id and title and whose second entry has only an id. -/
def zmRefStaleStream (a A b : String) : List YToken :=
  [.streamStart, .blockMappingStart, .key, .scalar "references", .value,
   .blockEntry, .blockMappingStart, .key, .scalar "id", .value, .scalar a,
   .key, .scalar "title", .value, .scalar A, .blockEnd,
   .blockEntry, .blockMappingStart, .key, .scalar "id", .value, .scalar b, .blockEnd,
   .blockEnd, .streamEnd]

/-- The value a flush leaves in an output field: the scratch value overwrites
the field when the scratch value is set (non-NULL, empty string included) and
the corresponding output field or the summary field is enabled. -/
def zmFlushVal (enabled : Bool) (scratch old : Option String) : Option String :=
  match scratch with
  | some v => if enabled then some v else old
  | none => old

/-- The whole effect of one flush on one pending record: both output fields
updated as by zmFlushVal. -/
def zmAttachFun (cfg : ZmConfig) (oid otitle : Option String) (r : ZmRecord) : ZmRecord :=
  { r with
      ident := zmFlushVal (cfg.fIdentifierEnabled || cfg.fSummaryEnabled) oid r.ident,
      title := zmFlushVal (cfg.fTitleEnabled || cfg.fSummaryEnabled) otitle r.title }

/-- The final state and store after replaying a whole token stream from the
initial subparser state with an empty record store. -/
def zmRunState (cfg : ZmConfig) (tokens : List YToken) : ZmState × List ZmRecord :=
  tokens.foldl (zmStep cfg) (zmInitState, [])

/-- The libyaml token stream of the block document `foo:` with a nested
mapping `id: A` (`foo` is not a recognized key): the stream stops right
after the key scalar `id` so the recognition state can be inspected. -/
def zmStaleKeyStream : List YToken :=
  [.streamStart, .blockMappingStart, .key, .scalar "foo", .value,
   .blockMappingStart, .key, .scalar "id"]

/-- The libyaml token stream of the flow document
`{foo: {id: A}, X}`: the unrecognized key `foo` leaves key-interpretation
mode armed, `id` is then recognized at mapping depth 2 without the
reference latch, and the pending value mode survives the inner mapping's
close so that the scalar X produces an identifier record at depth 1. -/
def zmFlowStaleStream : List YToken :=
  [.streamStart, .flowMappingStart, .key, .scalar "foo", .value,
   .flowMappingStart, .key, .scalar "id", .value, .scalar "A", .flowMappingEnd,
   .scalar "X", .flowMappingEnd, .streamEnd]

/-- The backtick-code closing pattern "^[ \t]*````*[ \t]*\n" matches at none
of the positions that directly follow a newline. -/
def noCloseTails : List Char → Bool
  | [] => true
  | c :: t => (if c = '\n' then (btCloseMatch t).isNone else true) && noCloseTails t

/-- The fence is never closed before end-of-input: the closing pattern
matches neither at the current position nor at any later line start (the
positions where the backtickcode table tries it). -/
def noCloseLines (l : List Char) : Bool := (btCloseMatch l).isNone && noCloseTails l

/-- One run of zRenderFieldSummary over a sequence of records (given by
their role bits), threading the static memo; returns the final memo, the
template used for each record in order, and the total number of template
constructions (fmtNew calls). -/
def zRenderRun (defF refF : String) : List Nat → ZSummaryMemo → ZSummaryMemo × List FmtElement × Nat
  | [], memo => (memo, [], 0)
  | rb :: rest, memo =>
      let q := zRenderFieldSummary defF refF memo rb
      let w := zRenderRun defF refF rest q.1
      (w.1, q.2.1 :: w.2.1, q.2.2 + w.2.2)

/-- One run of zmRenderFieldSummary over a sequence of records. -/
def zmRenderRun (sumF : String) : List Nat → Option FmtElement → Option FmtElement × List FmtElement × Nat
  | [], memo => (memo, [], 0)
  | rb :: rest, memo =>
      let q := zmRenderFieldSummary sumF memo rb
      let w := zmRenderRun sumF rest q.1
      (w.1, q.2.1 :: w.2.1, q.2.2 + w.2.2)

/-! # Theorems -/

/-! ## Shared helper lemmas -/

theorem zmMakeTagEntry_kind (cfg : ZmConfig) (st : ZmState) (store : List ZmRecord)
    (v : String) : (zmMakeTagEntry cfg st store v).1.kind = st.kind := by
  unfold zmMakeTagEntry zmPushTag
  (repeat' split) <;> rfl

theorem zmAttachIdent_get (store : List ZmRecord) (i : Nat) (v : String) (j : Nat) :
    (zmAttachIdent store i v)[j]? =
      if j = i then (store[j]?).map (fun r => { r with ident := some v }) else store[j]? := by
  unfold zmAttachIdent
  rcases h : store[i]? with _ | r
  · split_ifs with hj
    · subst hj; rw [h]; rfl
    · rfl
  · have hlen : i < store.length := by
      by_contra hc
      rw [List.getElem?_eq_none (by omega)] at h
      exact Option.noConfusion h
    rw [List.getElem?_set]
    split_ifs with hij hji hji
    · subst hij
      simp [hlen, h]
    · omega
    · omega
    · rfl

theorem zmAttachTitle_get (store : List ZmRecord) (i : Nat) (v : String) (j : Nat) :
    (zmAttachTitle store i v)[j]? =
      if j = i then (store[j]?).map (fun r => { r with title := some v }) else store[j]? := by
  unfold zmAttachTitle
  rcases h : store[i]? with _ | r
  · split_ifs with hj
    · subst hj; rw [h]; rfl
    · rfl
  · have hlen : i < store.length := by
      by_contra hc
      rw [List.getElem?_eq_none (by omega)] at h
      exact Option.noConfusion h
    rw [List.getElem?_set]
    split_ifs with hij hji hji
    · subst hij
      simp [hlen, h]
    · omega
    · omega
    · rfl

theorem zmAttachIdent_length (store : List ZmRecord) (i : Nat) (v : String) :
    (zmAttachIdent store i v).length = store.length := by
  unfold zmAttachIdent
  split <;> simp

theorem zmAttachTitle_length (store : List ZmRecord) (i : Nat) (v : String) :
    (zmAttachTitle store i v).length = store.length := by
  unfold zmAttachTitle
  split <;> simp

theorem zmAttachPending_get (cfg : ZmConfig) (oid otitle : Option String)
    (store : List ZmRecord) (i j : Nat) :
    (zmAttachPending cfg oid otitle store i)[j]? =
      if j = i then (store[j]?).map (zmAttachFun cfg oid otitle) else store[j]? := by
  by_cases hj : j = i
  · subst hj
    rcases oid with _ | v <;> rcases otitle with _ | w <;>
      by_cases hI : (cfg.fIdentifierEnabled || cfg.fSummaryEnabled) = true <;>
      by_cases hT : (cfg.fTitleEnabled || cfg.fSummaryEnabled) = true <;>
      rcases hr : store[j]? with _ | r <;>
      simp_all [zmAttachPending, zmAttachIdent_get, zmAttachTitle_get, zmAttachFun, zmFlushVal,
        zmAttachIdent_length, zmAttachTitle_length]
  · rcases oid with _ | v <;> rcases otitle with _ | w <;>
      by_cases hI : (cfg.fIdentifierEnabled || cfg.fSummaryEnabled) = true <;>
      by_cases hT : (cfg.fTitleEnabled || cfg.fSummaryEnabled) = true <;>
      simp_all [zmAttachPending, zmAttachIdent_get, zmAttachTitle_get]

theorem zmAttachFun_idem (cfg : ZmConfig) (oid otitle : Option String) (r : ZmRecord) :
    zmAttachFun cfg oid otitle (zmAttachFun cfg oid otitle r) = zmAttachFun cfg oid otitle r := by
  rcases oid with _ | v <;> rcases otitle with _ | w <;>
    by_cases hI : (cfg.fIdentifierEnabled || cfg.fSummaryEnabled) = true <;>
    by_cases hT : (cfg.fTitleEnabled || cfg.fSummaryEnabled) = true <;>
    simp_all [zmAttachFun, zmFlushVal]

theorem zmClearStackAux_get (cfg : ZmConfig) (oid otitle : Option String)
    (stack : List Nat) (store : List ZmRecord) (j : Nat) :
    (zmClearStackAux cfg oid otitle stack store)[j]? =
      if j ∈ stack then (store[j]?).map (zmAttachFun cfg oid otitle) else store[j]? := by
  induction stack generalizing store with
  | nil => simp [zmClearStackAux]
  | cons i rest ih =>
      rw [zmClearStackAux, ih, zmAttachPending_get]
      by_cases hjr : j ∈ rest
      · by_cases hji : j = i
        · subst hji
          simp only [hjr, if_true, if_pos rfl, List.mem_cons, or_true]
          rcases store[j]? with _ | r
          · rfl
          · simp [zmAttachFun_idem]
        · simp [List.mem_cons, hjr, hji]
      · by_cases hji : j = i
        · subst hji
          simp [List.mem_cons, hjr]
        · simp [List.mem_cons, hjr, hji]

/-! ## C1: the nocite key -/

/-- C1 counterexample: on the metadata document `nocite: "@a @b, @c"` the
interpreter creates exactly ONE citation-key record, named by prepending "@"
to the whole raw scalar ("@@a @b, @c"), instead of one record per
"@"-prefixed token; so the store holds one record, not three records named
"@a", "@b", "@c". -/
theorem c1_counterexample :
    zmRun zmCfgAllOn (zmNociteStream "@a @b, @c") =
      [⟨"@@a @b, @c", K_CITEKEY, 0, none, none⟩] ∧
    (zmRun zmCfgAllOn (zmNociteStream "@a @b, @c")).length ≠ 3 := by
  constructor
  · rfl
  · decide

/-- C1 (corrected): processing a top-level `nocite` key with one scalar value
creates exactly one citation-key record per key/value pair; the record's name
is "@" prepended to the entire raw scalar (no whitespace/comma splitting, no
filtering of tokens by leading "@"), and it carries role index 0, the
"reference" role of the metadata citekey kind. -/
theorem c1_amended (v : String) :
    zmRun zmCfgAllOn (zmNociteStream v) = [⟨"@" ++ v, K_CITEKEY, 0, none, none⟩] ∧
    (ZettelMetadataCitekeyRoleTable.getD 0 ⟨false, "", ""⟩).name = "reference" := by
  constructor
  · simp [zmRun, zmNociteStream, zmStep, zmScalarStep, zmMakeTagEntry, zmTagName,
      zmResetSubparser, zmClearCorkStack, zmClearRefCorkStack, zmClearStackAux,
      zmAttachPending, zmAttachIdent, zmAttachTitle, zmPushTag, zmInitState, zmCfgAllOn,
      zmKindDef, R_NONE, R_INDEX, R_BIBLIOGRAPHY, R_REFERENCES,
      ZettelMetadataCitekeyRoleTable]
  · rfl

/-! ## C4: key depth recognition -/

/-- C4 counterexample: key-interpretation mode armed by an earlier
(unrecognized) key survives depth changes, so a key scalar IS recognized as
a semantic field kind at a depth combination the claim forbids.  In the
block document `foo:` with nested `id: A`, the key scalar `id` is recognized
as the identifier kind at mappingDepth 2 with the inReference latch unset;
in the flow document `{foo: {id: A}, X}` the stale pending-value mode even
produces an identifier record named X. -/
theorem c4_counterexample :
    (zmRunState zmCfgAllOn zmStaleKeyStream).1.kind = K_ID ∧
    (zmRunState zmCfgAllOn zmStaleKeyStream).1.scalarType = S_VALUE ∧
    (zmRunState zmCfgAllOn zmStaleKeyStream).1.mapping = 2 ∧
    (zmRunState zmCfgAllOn zmStaleKeyStream).1.sequence = 0 ∧
    (zmRunState zmCfgAllOn zmStaleKeyStream).1.reference = false ∧
    zmRun zmCfgAllOn zmFlowStaleStream = [⟨"X", K_ID, -1, some "X", none⟩] := by
  refine ⟨rfl, rfl, rfl, rfl, rfl, rfl⟩

/-- C4 (corrected): a key token never creates a record and never changes
the current field kind; it freshly arms top-level key interpretation
exactly when mappingDepth = 1 with sequenceDepth = 0 (and disarms to S_NONE
when mappingDepth = 1 with sequenceDepth non-zero), arms
reference-sub-object key interpretation exactly when the inReference latch
is set with mappingDepth = 2 and sequenceDepth < 2, and at every other
depth combination leaves the scalar mode UNCHANGED — so a stale
key-interpretation mode from an earlier unrecognized key survives and a key
scalar can be recognized at other depths (the counterexample).  A value
scalar, however, creates a record or touches the scratch state only when
mappingDepth = 1 or the latch is set with mappingDepth = 2, and scalars
arriving outside key-interpretation modes never change the field kind. -/
theorem c4_amended (cfg : ZmConfig) (st : ZmState) (store : List ZmRecord) :
    (zmStep cfg (st, store) .key).2 = store ∧
    (zmStep cfg (st, store) .key).1.kind = st.kind ∧
    (st.mapping = 1 ∧ st.sequence = 0 →
      (zmStep cfg (st, store) .key).1.scalarType = S_KEY) ∧
    (st.mapping = 1 ∧ st.sequence ≠ 0 →
      (zmStep cfg (st, store) .key).1.scalarType = S_NONE) ∧
    (st.reference = true ∧ st.mapping = 2 ∧ st.sequence < 2 →
      (zmStep cfg (st, store) .key).1.scalarType = S_REFERENCE) ∧
    (st.mapping ≠ 1 → ¬ (st.reference = true ∧ st.mapping = 2 ∧ st.sequence < 2) →
      (zmStep cfg (st, store) .key).1.scalarType = st.scalarType) ∧
    (∀ v, st.scalarType = S_VALUE →
      ¬ (st.mapping = 1 ∨ (st.reference = true ∧ st.mapping = 2)) →
      zmStep cfg (st, store) (.scalar v) = (st, store)) ∧
    (∀ v, st.scalarType ≠ S_KEY → st.scalarType ≠ S_REFERENCE →
      (zmStep cfg (st, store) (.scalar v)).1.kind = st.kind) := by
  refine ⟨?_, ?_, ?_, ?_, ?_, ?_, ?_, ?_⟩
  · simp only [zmStep]
    split_ifs <;> rfl
  · simp only [zmStep]
    split_ifs <;> rfl
  · rintro ⟨h1, h2⟩
    simp only [zmStep]
    split_ifs <;> simp_all
  · rintro ⟨h1, h2⟩
    simp only [zmStep]
    split_ifs <;> simp_all
  · rintro ⟨h1, h2, h3⟩
    simp only [zmStep]
    split_ifs <;> simp_all
  · intro h1 h2
    simp only [zmStep]
    split_ifs <;> simp_all
  · intro v hv hd
    simp only [zmStep, zmScalarStep]
    split_ifs <;> simp_all
  · intro v h1 h2
    simp only [zmStep, zmScalarStep]
    split_ifs <;> first
      | rfl
      | (rw [zmMakeTagEntry_kind])
      | simp_all

/-- C4 witness: the amended theorem applied at a concrete state at mapping
depth 3: a key token there leaves the scalar mode unchanged. -/
theorem c4_amended_witness :
    (zmStep zmCfgAllOn ({ zmInitState with mapping := 3 }, []) .key).1.scalarType =
      ({ zmInitState with mapping := 3 } : ZmState).scalarType :=
  (c4_amended zmCfgAllOn { zmInitState with mapping := 3 } []).2.2.2.2.2.1
    (by decide) (by decide)

/-! ## C5: flushing the deferred-annotation stacks -/

/-- C5 counterexample: flushing attaches even when the corresponding output
field is disabled (the summary field being enabled is sufficient), and even
when the scratch value is the empty string (the C code only tests for NULL):
with the identifier field disabled, the summary field enabled and the
identifier scratch holding "", the flush still attaches "" to the pending
record. -/
theorem c5_counterexample :
    (⟨none, none, none, none, false, false, true⟩ : ZmConfig).fIdentifierEnabled = false ∧
    ("" : String).length = 0 ∧
    (zmClearCorkStack ⟨none, none, none, none, false, false, true⟩
        { zmInitState with id := some "", corkStack := [0] }
        [⟨"z", K_ID, -1, none, none⟩]).2 =
      [⟨"z", K_ID, -1, some "", none⟩] := by
  refine ⟨rfl, rfl, rfl⟩

/-- C5 (corrected): flushing a stack leaves that stack empty and is the
identity when the stack is already empty (idempotence); each pending record
has its identifier (respectively title) output field overwritten with the
scope's scratch value exactly when that scratch value has been set — the
empty string counts as set — and the corresponding output field OR the
summary field is enabled (zmFlushVal/zmAttachFun); records not on the stack
are untouched.  This holds for the document-level stack (id/title scratch)
and for the reference-level stack (citekey/reftitle scratch) alike. -/
theorem c5_amended (cfg : ZmConfig) (st : ZmState) (store : List ZmRecord) :
    (zmClearCorkStack cfg st store).1 = { st with corkStack := [] } ∧
    (st.corkStack = [] → zmClearCorkStack cfg st store = (st, store)) ∧
    (∀ j, j ∈ st.corkStack →
      ((zmClearCorkStack cfg st store).2)[j]? =
        (store[j]?).map (zmAttachFun cfg st.id st.title)) ∧
    (∀ j, j ∉ st.corkStack → ((zmClearCorkStack cfg st store).2)[j]? = store[j]?) ∧
    (zmClearRefCorkStack cfg st store).1 = { st with refCorkStack := [] } ∧
    (st.refCorkStack = [] → zmClearRefCorkStack cfg st store = (st, store)) ∧
    (∀ j, j ∈ st.refCorkStack →
      ((zmClearRefCorkStack cfg st store).2)[j]? =
        (store[j]?).map (zmAttachFun cfg st.citekey st.reftitle)) ∧
    (∀ j, j ∉ st.refCorkStack → ((zmClearRefCorkStack cfg st store).2)[j]? = store[j]?) := by
  refine ⟨rfl, ?_, ?_, ?_, rfl, ?_, ?_, ?_⟩
  · intro h
    obtain ⟨k, r, sc, b, rf, m, s, i, t, c, rt, cs, rcs⟩ := st
    simp_all [zmClearCorkStack, zmClearStackAux]
  · intro j hj
    show (zmClearStackAux cfg st.id st.title st.corkStack store)[j]? = _
    rw [zmClearStackAux_get, if_pos hj]
  · intro j hj
    show (zmClearStackAux cfg st.id st.title st.corkStack store)[j]? = _
    rw [zmClearStackAux_get, if_neg hj]
  · intro h
    obtain ⟨k, r, sc, b, rf, m, s, i, t, c, rt, cs, rcs⟩ := st
    simp_all [zmClearRefCorkStack, zmClearStackAux]
  · intro j hj
    show (zmClearStackAux cfg st.citekey st.reftitle st.refCorkStack store)[j]? = _
    rw [zmClearStackAux_get, if_pos hj]
  · intro j hj
    show (zmClearStackAux cfg st.citekey st.reftitle st.refCorkStack store)[j]? = _
    rw [zmClearStackAux_get, if_neg hj]

/-- C5 witness: the amended theorem applied at a concrete state with one
pending record, a set identifier scratch and all fields enabled. -/
theorem c5_amended_witness :
    ((zmClearCorkStack zmCfgAllOn
        { zmInitState with id := some "z1", corkStack := [0] }
        [⟨"t", K_TITLE, -1, none, none⟩]).2)[0]? =
      (([⟨"t", K_TITLE, -1, none, none⟩] : List ZmRecord)[0]?).map
        (zmAttachFun zmCfgAllOn
          ({ zmInitState with id := some "z1", corkStack := [0] } : ZmState).id
          ({ zmInitState with id := some "z1", corkStack := [0] } : ZmState).title) :=
  (c5_amended zmCfgAllOn { zmInitState with id := some "z1", corkStack := [0] }
    [⟨"t", K_TITLE, -1, none, none⟩]).2.2.1 0 (by decide)

/-! ## C6: two complete reference entries, no cross-attachment -/

/-- C6 (confirmed): for a `references:` block with two list entries, each
with its own id and title, the run produces the citation-key record of entry
one annotated with entry one's citekey/title, and the citation-key record of
entry two annotated with entry two's citekey/title — the first entry's
reference stack is flushed when its sub-mapping closes, before entry two is
read, so no value of entry two can reach entry one's records and vice
versa. -/
theorem c6_no_cross_attachment (a A b B : String) :
    zmRun zmCfgAllOn (zmRefPairStream a A b B) =
      [⟨"@" ++ a, K_CITEKEY, -1, some a, some A⟩,
       ⟨A, K_REFTITLE, -1, some a, some A⟩,
       ⟨"@" ++ b, K_CITEKEY, -1, some b, some B⟩,
       ⟨B, K_REFTITLE, -1, some b, some B⟩] := by
  simp [zmRun, zmRefPairStream, zmStep, zmScalarStep, zmMakeTagEntry, zmTagName,
    zmResetSubparser, zmClearCorkStack, zmClearRefCorkStack, zmClearStackAux,
    zmAttachPending, zmAttachIdent, zmAttachTitle, zmPushTag, zmInitState, zmCfgAllOn,
    zmKindDef, R_NONE, ZettelMetadataCitekeyRoleTable]

/-! ## C10: reference scratch values survive the close of a sub-object -/

/-- C10 (confirmed): zmClearRefCorkStack empties the reference stack but does
not clear the citekey/reftitle scratch values; consequently, in a
`references:` list whose first entry sets id=a and title=A and whose second
entry sets only id=b, the second entry's citation-key record is annotated
with the stale title A of the first entry. -/
theorem c10_stale_reftitle (a A b : String) :
    zmRun zmCfgAllOn (zmRefStaleStream a A b) =
      [⟨"@" ++ a, K_CITEKEY, -1, some a, some A⟩,
       ⟨A, K_REFTITLE, -1, some a, some A⟩,
       ⟨"@" ++ b, K_CITEKEY, -1, some b, some A⟩] ∧
    (∀ cfg st store, (zmClearRefCorkStack cfg st store).1.citekey = st.citekey ∧
      (zmClearRefCorkStack cfg st store).1.reftitle = st.reftitle) := by
  constructor
  · simp [zmRun, zmRefStaleStream, zmStep, zmScalarStep, zmMakeTagEntry, zmTagName,
      zmResetSubparser, zmClearCorkStack, zmClearRefCorkStack, zmClearStackAux,
      zmAttachPending, zmAttachIdent, zmAttachTitle, zmPushTag, zmInitState, zmCfgAllOn,
      zmKindDef, R_NONE, ZettelMetadataCitekeyRoleTable]
  · intro cfg st store
    exact ⟨rfl, rfl⟩

/-! ## C3 and C9: the tag name encoders -/

theorem zPercentEncode_id : ∀ n : List Nat,
    (∀ b ∈ n, 0x21 ≤ b ∧ b ≤ 0x7E ∧ b ≠ 0x25) → zPercentEncode n = n := by
  intro n
  induction n with
  | nil => intro _; rfl
  | cons b t ih =>
      intro h
      have hb := h b (List.mem_cons_self b t)
      have ht := ih (fun x hx => h x (List.mem_cons_of_mem b hx))
      have h1 : ¬ b < 0x21 := by omega
      have h2 : ¬ 0x7E < b := by omega
      calc zPercentEncode (b :: t) = zEncByte false b ++ zPercentEncode t := by
            simp [zPercentEncode]
        _ = b :: t := by
            rw [ht]
            simp [zEncByte, h1, h2, hb.2.2]

theorem zmStringEscape_id : ∀ n : List Nat,
    (∀ b ∈ n, 0x21 ≤ b ∧ b ≤ 0x7E ∧ b ≠ 0x5C) → zmStringEscape n = n := by
  intro n
  induction n with
  | nil => intro _; rfl
  | cons b t ih =>
      intro h
      have hb := h b (List.mem_cons_self b t)
      have ht := ih (fun x hx => h x (List.mem_cons_of_mem b hx))
      have h1 : ¬ b < 0x21 := by omega
      have h2 : ¬ 0x7E < b := by omega
      calc zmStringEscape (b :: t) = zmEscByte false b ++ zmStringEscape t := by
            simp [zmStringEscape]
        _ = b :: t := by
            rw [ht]
            simp [zmEscByte, h1, h2, hb.2.2]

theorem unhex_hexDigit (d : Nat) (hd : d < 16) : unhex (hexDigit d) = d := by
  unfold unhex hexDigit
  split_ifs <;> omega

theorem zmDecode_quad (b : Nat) (hb : b < 256) (rest : List Nat) :
    zmDecode (0x5C :: 0x78 :: hexDigit (b / 16 % 16) :: hexDigit (b % 16) :: rest) =
      b :: zmDecode rest := by
  simp [zmDecode, unhex_hexDigit (b / 16 % 16) (by omega), unhex_hexDigit (b % 16) (by omega)]
  omega

theorem zmDecode_cons_ne {c : Nat} (hc : c ≠ 0x5C) (rest : List Nat) :
    zmDecode (c :: rest) = c :: zmDecode rest := by
  rcases rest with _ | ⟨d, _ | ⟨h, _ | ⟨l, r⟩⟩⟩
  · rfl
  · rfl
  · rfl
  · show zmDecode (c :: d :: h :: l :: r) = _
    rw [zmDecode, if_neg]
    intro hand
    exact hc hand.1

theorem zmEscByte_esc (b : Nat) (hesc : b < 0x21 ∨ 0x7E < b ∨ b = 0x5C) :
    zmEscByte false b = [0x5C, 0x78, hexDigit (b / 16 % 16), hexDigit (b % 16)] := by
  rcases hesc with h | h | h <;> simp [zmEscByte, h]

theorem zmEscByte_lit (b : Nat) (h1 : ¬ b < 0x21) (h2 : ¬ 0x7E < b) (h3 : b ≠ 0x5C) :
    zmEscByte false b = [b] := by
  simp [zmEscByte, h1, h2, h3]

theorem zmDecode_escape_append : ∀ n : List Nat, (∀ b ∈ n, b < 256) →
    ∀ rest, zmDecode (zmStringEscape n ++ rest) = n ++ zmDecode rest := by
  intro n
  induction n with
  | nil => intro _ rest; simp [zmStringEscape]
  | cons b t ih =>
      intro h rest
      have hb := h b (List.mem_cons_self b t)
      have ht := ih (fun x hx => h x (List.mem_cons_of_mem b hx)) rest
      have hflat : zmStringEscape (b :: t) = zmEscByte false b ++ zmStringEscape t := by
        simp [zmStringEscape]
      by_cases hesc : b < 0x21 ∨ 0x7E < b ∨ b = 0x5C
      · rw [hflat, zmEscByte_esc b hesc]
        have hshape : ([0x5C, 0x78, hexDigit (b / 16 % 16), hexDigit (b % 16)] ++
            zmStringEscape t) ++ rest =
            0x5C :: 0x78 :: hexDigit (b / 16 % 16) :: hexDigit (b % 16) ::
              (zmStringEscape t ++ rest) := by
          simp
        rw [hshape, zmDecode_quad b hb, ht]
        rfl
      · push_neg at hesc
        obtain ⟨h1, h2, h3⟩ := hesc
        rw [hflat, zmEscByte_lit b (by omega) (by omega) h3]
        have hshape : (([b] ++ zmStringEscape t) ++ rest) =
            b :: (zmStringEscape t ++ rest) := by simp
        rw [hshape, zmDecode_cons_ne h3, ht]
        rfl

theorem zmDecode_escape (n : List Nat) (h : ∀ b ∈ n, b < 256) :
    zmDecode (zmStringEscape n) = n := by
  have := zmDecode_escape_append n h []
  simpa [zmDecode] using this

theorem zmDecode_copy_append : ∀ p : List Nat, 0x5C ∉ p →
    ∀ X, zmDecode (p ++ X) = p ++ zmDecode X := by
  intro p
  induction p with
  | nil => intro _ X; rfl
  | cons c t ih =>
      intro h X
      have hc : c ≠ 0x5C := by
        intro he
        exact h (he ▸ List.mem_cons_self c t)
      have ht := ih (fun hx => h (List.mem_cons_of_mem c hx)) X
      rw [List.cons_append, zmDecode_cons_ne hc, ht]
      rfl

theorem zmDecode_renderEsc (own : Option (List Nat)) (others : List (Option (List Nat)))
    (n : List Nat) (hn : ∀ b ∈ n, b < 256) (hown : 0x5C ∉ own.getD []) :
    zmDecode (zmRenderEsc own others n) = n := by
  unfold zmRenderEsc
  split_ifs with h1 h2
  · have hpre : (own.getD []) <+: n := by
      unfold pfxMatches at h1
      exact List.isPrefixOf_iff_prefix.mp ((Bool.and_eq_true _ _).mp h1).2
    obtain ⟨t, ht⟩ := hpre
    have hdrop : n.drop (own.getD []).length = t := by
      rw [← ht, List.drop_left]
    have hdec : zmDecode (zmStringEscape t) = t := by
      refine zmDecode_escape t ?_
      intro x hx
      exact hn x (by rw [← ht]; exact List.mem_append_right _ hx)
    rw [hdrop, zmDecode_copy_append _ hown, hdec, ht]
  · cases n with
    | nil => rfl
    | cons c rest =>
        have hc := hn c (List.mem_cons_self c rest)
        show zmDecode (zmEscByte true c ++ zmStringEscape rest) = c :: rest
        have hq : zmEscByte true c =
            [0x5C, 0x78, hexDigit (c / 16 % 16), hexDigit (c % 16)] := by
          simp [zmEscByte]
        have hdec : zmDecode (zmStringEscape rest) = rest :=
          zmDecode_escape rest (fun x hx => hn x (List.mem_cons_of_mem c hx))
        rw [hq]
        have hshape : ([0x5C, 0x78, hexDigit (c / 16 % 16), hexDigit (c % 16)] ++
            zmStringEscape rest) =
            0x5C :: 0x78 :: hexDigit (c / 16 % 16) :: hexDigit (c % 16) ::
              zmStringEscape rest := by simp
        rw [hshape]
        have := zmDecode_quad c hc (zmStringEscape rest)
        rw [this, hdec]
  · cases n with
    | nil => rfl
    | cons c rest =>
        show zmDecode (if c = 0x21 then zmEscByte true c ++ zmStringEscape rest
          else zmStringEscape (c :: rest)) = c :: rest
        have hc := hn c (List.mem_cons_self c rest)
        by_cases hbang : c = 0x21
        · rw [if_pos hbang]
          have hq : zmEscByte true c =
              [0x5C, 0x78, hexDigit (c / 16 % 16), hexDigit (c % 16)] := by
            simp [zmEscByte]
          have hdec : zmDecode (zmStringEscape rest) = rest :=
            zmDecode_escape rest (fun x hx => hn x (List.mem_cons_of_mem c hx))
          rw [hq]
          have hshape : ([0x5C, 0x78, hexDigit (c / 16 % 16), hexDigit (c % 16)] ++
              zmStringEscape rest) =
              0x5C :: 0x78 :: hexDigit (c / 16 % 16) :: hexDigit (c % 16) ::
                zmStringEscape rest := by simp
          rw [hshape]
          have := zmDecode_quad c hc (zmStringEscape rest)
          rw [this, hdec]
        · rw [if_neg hbang]
          exact zmDecode_escape (c :: rest) hn

/-- C9 (corrected): the metadata tag-name encoder is injective on raw names
(bytes < 256) of one kind provided the kind's OWN configured prefix contains
no backslash byte 0x5C; pairwise disjointness of the prefixes is neither
needed for this proof nor sufficient on its own (see the counterexample).
Identifier and citation-key kinds are passed through verbatim and are
trivially injective. -/
theorem c9_amended (cfg : ZmEncConfig) (kind : ZmKind) (n1 n2 : List Nat)
    (h1 : ∀ b ∈ n1, b < 256) (h2 : ∀ b ∈ n2, b < 256)
    (hp : 0x5C ∉ (zmOwnPfx cfg kind).getD [])
    (he : zmRenderFieldTag cfg kind n1 = zmRenderFieldTag cfg kind n2) : n1 = n2 := by
  cases kind with
  | K_NONE => exact he
  | K_ID => exact he
  | K_CITEKEY => exact he
  | K_TITLE =>
      have d1 := zmDecode_renderEsc cfg.titlePfx
        [cfg.reftitlePfx, cfg.keywordPfx, cfg.bibliographyPfx] n1 h1 hp
      have d2 := zmDecode_renderEsc cfg.titlePfx
        [cfg.reftitlePfx, cfg.keywordPfx, cfg.bibliographyPfx] n2 h2 hp
      simp only [zmRenderFieldTag] at he
      rw [← d1, ← d2, he]
  | K_REFTITLE =>
      have d1 := zmDecode_renderEsc cfg.reftitlePfx
        [cfg.titlePfx, cfg.keywordPfx, cfg.bibliographyPfx] n1 h1 hp
      have d2 := zmDecode_renderEsc cfg.reftitlePfx
        [cfg.titlePfx, cfg.keywordPfx, cfg.bibliographyPfx] n2 h2 hp
      simp only [zmRenderFieldTag] at he
      rw [← d1, ← d2, he]
  | K_KEYWORD =>
      have d1 := zmDecode_renderEsc cfg.keywordPfx
        [cfg.titlePfx, cfg.reftitlePfx, cfg.bibliographyPfx] n1 h1 hp
      have d2 := zmDecode_renderEsc cfg.keywordPfx
        [cfg.titlePfx, cfg.reftitlePfx, cfg.bibliographyPfx] n2 h2 hp
      simp only [zmRenderFieldTag] at he
      rw [← d1, ← d2, he]
  | K_BIBLIOGRAPHY =>
      have d1 := zmDecode_renderEsc cfg.bibliographyPfx
        [cfg.titlePfx, cfg.reftitlePfx, cfg.keywordPfx] n1 h1 hp
      have d2 := zmDecode_renderEsc cfg.bibliographyPfx
        [cfg.titlePfx, cfg.reftitlePfx, cfg.keywordPfx] n2 h2 hp
      simp only [zmRenderFieldTag] at he
      rw [← d1, ← d2, he]

/-- C9 counterexample: with the pairwise-disjoint prefixes title-prefix =
backslash,x,6,1 and reftitle-prefix = "a", the two distinct raw title names
backslash,x,6,1 and "a" encode to the same string: the first has its own
prefix copied verbatim, the second gets its leading byte 0x61 force-escaped
to backslash,x,6,1.  Disjointness of the prefixes does not give
injectivity. -/
theorem c9_counterexample :
    (¬ List.isPrefixOf ([0x5C, 0x78, 0x36, 0x31] : List Nat) [0x61] ∧
     ¬ List.isPrefixOf ([0x61] : List Nat) [0x5C, 0x78, 0x36, 0x31]) ∧
    ([0x5C, 0x78, 0x36, 0x31] : List Nat) ≠ [0x61] ∧
    zmRenderFieldTag ⟨some [0x5C, 0x78, 0x36, 0x31], some [0x61], none, none⟩ K_TITLE
        [0x5C, 0x78, 0x36, 0x31] =
      zmRenderFieldTag ⟨some [0x5C, 0x78, 0x36, 0x31], some [0x61], none, none⟩ K_TITLE
        [0x61] := by
  decide

/-- C3 counterexample: identity fails inside printable ASCII, and the
metadata encoder's escapes are not percent-style.  "a%b" (all bytes in
0x21-0x7E, not starting with !, @ or any prefix) is changed by the markdown
encoder to "a%25b"; "a\b" is changed by the metadata encoder to
"a\x5cb"; and a metadata escape starts with the backslash byte 0x5C, not
with the percent byte 0x25. -/
theorem c3_counterexample :
    (∀ b ∈ ([0x61, 0x25, 0x62] : List Nat), 0x21 ≤ b ∧ b ≤ 0x7E) ∧
    ([0x61, 0x25, 0x62] : List Nat).head? ≠ some 0x21 ∧
    ([0x61, 0x25, 0x62] : List Nat).head? ≠ some 0x40 ∧
    zRenderFieldTag [0x61, 0x25, 0x62] = [0x61, 0x25, 0x32, 0x35, 0x62] ∧
    zRenderFieldTag [0x61, 0x25, 0x62] ≠ [0x61, 0x25, 0x62] ∧
    (∀ b ∈ ([0x61, 0x5C, 0x62] : List Nat), 0x21 ≤ b ∧ b ≤ 0x7E) ∧
    zmRenderFieldTag ⟨none, none, none, none⟩ K_TITLE [0x61, 0x5C, 0x62] =
      [0x61, 0x5C, 0x78, 0x35, 0x63, 0x62] ∧
    (zmEscByte true 0x0A).head? = some 0x5C ∧
    (zmEscByte true 0x0A).head? ≠ some 0x25 := by
  decide

/-- C3 (corrected): the metadata encoder is the identity on names whose
bytes are all in 0x21-0x7E AND are not the backslash 0x5C, which do not
start with "!" (0x21) or any configured prefix; the markdown encoder is the
identity on names whose bytes are all in 0x21-0x7E AND are not the percent
sign 0x25 and which do not start with "!".  (Leading "@" needs no exclusion:
neither encoder treats it specially.)  Escapes are backslash-x-hex-hex in
the metadata encoder and percent-hex-hex in the markdown encoder. -/
theorem c3_amended (cfg : ZmEncConfig) (kind : ZmKind) (n m : List Nat)
    (hn : ∀ b ∈ n, 0x21 ≤ b ∧ b ≤ 0x7E ∧ b ≠ 0x5C)
    (hbang : n.head? ≠ some 0x21)
    (hp1 : pfxMatches cfg.titlePfx n = false)
    (hp2 : pfxMatches cfg.reftitlePfx n = false)
    (hp3 : pfxMatches cfg.keywordPfx n = false)
    (hp4 : pfxMatches cfg.bibliographyPfx n = false)
    (hm : ∀ b ∈ m, 0x21 ≤ b ∧ b ≤ 0x7E ∧ b ≠ 0x25)
    (hmbang : m.head? ≠ some 0x21) :
    zmRenderFieldTag cfg kind n = n ∧ zRenderFieldTag m = m := by
  have hesc : ∀ own others, pfxMatches own n = false →
      (others.any (fun p => pfxMatches p n)) = false → zmRenderEsc own others n = n := by
    intro own others hofalse hafalse
    unfold zmRenderEsc
    rw [if_neg (by simp [hofalse]), if_neg (by simp [hafalse])]
    cases n with
    | nil => rfl
    | cons c rest =>
        have hc : c ≠ 0x21 := by
          intro hce
          exact hbang (by simp [hce])
        show (if c = 0x21 then zmEscByte true c ++ zmStringEscape rest
          else zmStringEscape (c :: rest)) = c :: rest
        rw [if_neg hc]
        exact zmStringEscape_id (c :: rest) hn
  constructor
  · cases kind with
    | K_NONE => rfl
    | K_ID => rfl
    | K_CITEKEY => rfl
    | K_TITLE => exact hesc _ _ hp1 (by simp [hp2, hp3, hp4])
    | K_REFTITLE => exact hesc _ _ hp2 (by simp [hp1, hp3, hp4])
    | K_KEYWORD => exact hesc _ _ hp3 (by simp [hp1, hp2, hp4])
    | K_BIBLIOGRAPHY => exact hesc _ _ hp4 (by simp [hp1, hp2, hp3])
  · cases m with
    | nil => rfl
    | cons c rest =>
        have hc : c ≠ 0x21 := by
          intro hce
          exact hmbang (by simp [hce])
        show (if c = 0x21 then zEncByte true c ++ zPercentEncode rest
          else zPercentEncode (c :: rest)) = c :: rest
        rw [if_neg hc]
        exact zPercentEncode_id (c :: rest) hm

/-- C3 witness: the amended identity at concrete one-byte names. -/
theorem c3_amended_witness :
    zmRenderFieldTag ⟨none, none, none, none⟩ K_TITLE [0x61] = [0x61] ∧
    zRenderFieldTag [0x62] = [0x62] :=
  c3_amended ⟨none, none, none, none⟩ K_TITLE [0x61] [0x62]
    (by decide) (by decide) (by decide) (by decide) (by decide) (by decide)
    (by decide) (by decide)

/-- C9 witness: the amended injectivity applied at concrete names with no
prefixes configured. -/
theorem c9_amended_witness : ([0x61] : List Nat) = [0x61] :=
  c9_amended ⟨none, none, none, none⟩ K_TITLE [0x61] [0x61]
    (by decide) (by decide) (by decide) (by decide)

/-! ## C7: summary template selection and memoization -/

theorem zRenderRun_spec (defF refF : String) : ∀ (rbs : List Nat) (memo : ZSummaryMemo),
    (memo.defFmt = none ∨ memo.defFmt = some (fmtNew defF)) →
    (memo.refFmt = none ∨ memo.refFmt = some (fmtNew refF)) →
    (zRenderRun defF refF rbs memo).2.1 =
      rbs.map (fun rb => fmtNew (if rb ≠ 0 then refF else defF)) ∧
    (zRenderRun defF refF rbs memo).2.2 ≤
      (if memo.defFmt = none then 1 else 0) + (if memo.refFmt = none then 1 else 0) := by
  intro rbs
  induction rbs with
  | nil =>
      intro memo _ _
      simp [zRenderRun]
  | cons rb rest ih =>
      intro memo h1 h2
      by_cases hrb : rb = 0
      · subst hrb
        rcases h1 with h1 | h1
        · have step : zRenderFieldSummary defF refF memo 0 =
              ({ memo with defFmt := some (fmtNew defF) }, fmtNew defF, 1) := by
            simp [zRenderFieldSummary, h1]
          have ihr := ih { memo with defFmt := some (fmtNew defF) } (Or.inr rfl) h2
          constructor
          · simp [zRenderRun, step, ihr.1]
          · have hc := ihr.2
            simp only [zRenderRun, step]
            simp [h1] at hc ⊢
            omega
        · have step : zRenderFieldSummary defF refF memo 0 = (memo, fmtNew defF, 0) := by
            simp [zRenderFieldSummary, h1]
          have ihr := ih memo (Or.inr h1) h2
          constructor
          · simp [zRenderRun, step, ihr.1]
          · have hc := ihr.2
            simp only [zRenderRun, step]
            simp [h1] at hc ⊢
            omega
      · rcases h2 with h2 | h2
        · have step : zRenderFieldSummary defF refF memo rb =
              ({ memo with refFmt := some (fmtNew refF) }, fmtNew refF, 1) := by
            simp [zRenderFieldSummary, h2, hrb]
          have ihr := ih { memo with refFmt := some (fmtNew refF) } h1 (Or.inr rfl)
          constructor
          · simp [zRenderRun, step, ihr.1, hrb]
          · have hc := ihr.2
            simp only [zRenderRun, step]
            simp [h2] at hc ⊢
            omega
        · have step : zRenderFieldSummary defF refF memo rb = (memo, fmtNew refF, 0) := by
            simp [zRenderFieldSummary, h2, hrb]
          have ihr := ih memo h1 (Or.inr h2)
          constructor
          · simp [zRenderRun, step, ihr.1, hrb]
          · have hc := ihr.2
            simp only [zRenderRun, step]
            simp [h2] at hc ⊢
            omega

theorem zmRenderRun_spec (sumF : String) : ∀ (rbs : List Nat) (memo : Option FmtElement),
    (memo = none ∨ memo = some (fmtNew sumF)) →
    (zmRenderRun sumF rbs memo).2.1 = rbs.map (fun _ => fmtNew sumF) ∧
    (zmRenderRun sumF rbs memo).2.2 ≤ (if memo = none then 1 else 0) := by
  intro rbs
  induction rbs with
  | nil =>
      intro memo _
      simp [zmRenderRun]
  | cons rb rest ih =>
      intro memo h
      rcases h with h | h
      · subst h
        have step : zmRenderFieldSummary sumF none rb =
            (some (fmtNew sumF), fmtNew sumF, 1) := by
          simp [zmRenderFieldSummary]
        have ihr := ih (some (fmtNew sumF)) (Or.inr rfl)
        constructor
        · simp [zmRenderRun, step, ihr.1]
        · have hc := ihr.2
          simp only [zmRenderRun, step]
          simp at hc ⊢
          omega
      · subst h
        have step : zmRenderFieldSummary sumF (some (fmtNew sumF)) rb =
            (some (fmtNew sumF), fmtNew sumF, 0) := by
          simp [zmRenderFieldSummary]
        have ihr := ih (some (fmtNew sumF)) (Or.inr rfl)
        constructor
        · simp [zmRenderRun, step, ihr.1]
        · have hc := ihr.2
          simp only [zmRenderRun, step]
          simp at hc ⊢
          omega

/-- C7 counterexample: the metadata summary renderer zmRenderFieldSummary
has one single template and ignores the record's role bits: a record with
role bits set (such as a nocite citation key) is rendered with exactly the
same template as a record without, so there is no pair of distinct
definition/reference templates selected by the role bits. -/
theorem c7_counterexample :
    (zmRenderFieldSummary "F" none 0).2.1 = (zmRenderFieldSummary "F" none 1).2.1 ∧
    ¬ ∃ defT refT : FmtElement, defT ≠ refT ∧
      (zmRenderFieldSummary "F" none 0).2.1 = defT ∧
      (zmRenderFieldSummary "F" none 1).2.1 = refT := by
  constructor
  · rfl
  · rintro ⟨d, r, hne, hd, hr⟩
    apply hne
    rw [← hd, ← hr]
    rfl

/-- C7 (corrected): in the markdown renderer zRenderFieldSummary, over any
run of renderings starting from the empty memo, each record is rendered with
the template built from the reference format exactly when its role bits are
non-zero and from the definition format otherwise, and at most two template
constructions happen in the whole run (each template is built once and
reused); the metadata renderer zmRenderFieldSummary instead uses one single
template built from the summary format for every record regardless of role
bits, constructed at most once per run. -/
theorem c7_amended (defF refF sumF : String) (rbs : List Nat) :
    (zRenderRun defF refF rbs ⟨none, none⟩).2.1 =
      rbs.map (fun rb => fmtNew (if rb ≠ 0 then refF else defF)) ∧
    (zRenderRun defF refF rbs ⟨none, none⟩).2.2 ≤ 2 ∧
    (zmRenderRun sumF rbs none).2.1 = rbs.map (fun _ => fmtNew sumF) ∧
    (zmRenderRun sumF rbs none).2.2 ≤ 1 := by
  have h1 := zRenderRun_spec defF refF rbs ⟨none, none⟩ (Or.inl rfl) (Or.inl rfl)
  have h2 := zmRenderRun_spec sumF rbs none (Or.inl rfl)
  refine ⟨h1.1, ?_, h2.1, ?_⟩
  · have := h1.2
    simpa using this
  · have := h2.2
    simpa using this

/-! ## C2 and C8: the text scanner -/

theorem takeWhile_append_cons {α} (p : α → Bool) (xs : List α) (y : α) (ys : List α)
    (hx : ∀ c ∈ xs, p c = true) (hy : p y = false) :
    (xs ++ y :: ys).takeWhile p = xs := by
  induction xs with
  | nil => simp [List.takeWhile_cons, hy]
  | cons a t ih =>
      simp only [List.cons_append, List.takeWhile_cons, hx a (List.mem_cons_self a t),
        if_true]
      rw [ih (fun c hc => hx c (List.mem_cons_of_mem a hc))]

theorem wikiLinkMatch_spec (id : List Char) (hne : id ≠ [])
    (hid : ∀ c ∈ id, c ≠ ']' ∧ c ≠ '\n') :
    wikiLinkMatch ('[' :: '[' :: (id ++ [']', ']', '\n'])) = some (id, ['\n']) := by
  have ht : (id ++ [']', ']', '\n']).takeWhile (fun c => c ≠ ']') = id :=
    takeWhile_append_cons _ id ']' [']', '\n']
      (fun c hc => by simpa using (hid c hc).1) (by simp)
  have hlen : id.length ≥ 1 := by
    cases id with
    | nil => exact absurd rfl hne
    | cons a t => simp
  simp only [wikiLinkMatch, ht, hlen, if_true, List.drop_left]
  rfl

theorem mainStep_wiki (id : List Char) (hne : id ≠ [])
    (hid : ∀ c ∈ id, c ≠ ']' ∧ c ≠ '\n') :
    mainStep ('[' :: '[' :: (id ++ [']', ']', '\n'])) =
      .cont .main ['\n'] [⟨.wikilink, 0, id⟩] := by
  unfold mainStep
  rw [wikiLinkMatch_spec id hne hid]
  rfl

/-- C2 (corrected): the markdown parser has no forward-link pattern; a Main
line `next:[[id]]` is consumed as the fallback single character "n", the
ordinary-text run "ext:", and then the generic wiki-link pattern, producing
exactly ONE Wikilink record that carries role index 0 — the default "ref"
reference role, which is the only role the wikilink kind has. -/
theorem c2_amended (id : List Char) (acc : List MdTag) (fuel : Nat)
    (hne : id ≠ []) (hid : ∀ c ∈ id, c ≠ ']' ∧ c ≠ '\n') :
    zScan (fuel + 5) .main
        ('n' :: 'e' :: 'x' :: 't' :: ':' :: '[' :: '[' :: (id ++ [']', ']', '\n'])) acc =
      acc ++ [⟨.wikilink, 0, id⟩] ∧
    ZettelMarkdownWikilinkRoleTable.length = 1 := by
  constructor
  · show zScan (fuel + 1 + 1 + 1 + 1 + 1) .main _ acc = _
    have hA : mainStep ('n' :: 'e' :: 'x' :: 't' :: ':' :: '[' :: '[' ::
        (id ++ [']', ']', '\n'])) =
        .cont .main ('e' :: 'x' :: 't' :: ':' :: '[' :: '[' :: (id ++ [']', ']', '\n'])) [] :=
      rfl
    have hB : mainStep ('e' :: 'x' :: 't' :: ':' :: '[' :: '[' :: (id ++ [']', ']', '\n'])) =
        .cont .main ('[' :: '[' :: (id ++ [']', ']', '\n'])) [] := rfl
    have hC := mainStep_wiki id hne hid
    have hD : mainStep ['\n'] = .cont .main [] [] := rfl
    simp only [zScan, regionStep, hA, hB, hC, hD, List.isEmpty_cons, Bool.false_eq_true,
      if_false, List.append_nil, List.isEmpty_nil, if_true]
  · rfl

/-- C2 witness: the amended theorem at id = "x" with empty accumulator. -/
theorem c2_amended_witness :
    zScan 5 .main
        ('n' :: 'e' :: 'x' :: 't' :: ':' :: '[' :: '[' :: (['x'] ++ [']', ']', '\n'])) [] =
      [] ++ [⟨.wikilink, 0, ['x']⟩] ∧
    ZettelMarkdownWikilinkRoleTable.length = 1 :=
  c2_amended ['x'] [] 0 (by decide) (by decide)

/-- C2 counterexample: scanning the Main line `next:[[x]]` produces exactly
one record, a Wikilink whose role is index 0 = the default "ref" reference
role (the role table holds only that role), refuting the claim that such a
line yields a Wikilink with a role distinct from the default reference
role via a forward-link pattern tried first. -/
theorem c2_counterexample :
    zScan 20 .main ['n', 'e', 'x', 't', ':', '[', '[', 'x', ']', ']', '\n'] [] =
      [⟨.wikilink, 0, ['x']⟩] ∧
    ZettelMarkdownWikilinkRoleTable = [⟨true, "ref", "references"⟩] := by
  constructor
  · rfl
  · rfl

-- C8
theorem noCloseLines_btClose {l : List Char} (h : noCloseLines l = true) :
    btCloseMatch l = none := by
  simp [noCloseLines] at h
  exact h.1

theorem noCloseTails_afterNl : ∀ (l r : List Char), noCloseTails l = true →
    afterNl l = some r → btCloseMatch r = none ∧ noCloseTails r = true := by
  intro l
  induction l with
  | nil =>
      intro r _ ha
      simp [afterNl] at ha
  | cons c t ih =>
      intro r h ha
      by_cases hc : c = '\n'
      · subst hc
        simp [noCloseTails] at h
        simp [afterNl] at ha
        subst ha
        exact h
      · simp [noCloseTails, hc] at h
        simp [afterNl, hc] at ha
        exact ih r h ha

theorem noCloseLines_afterNl {l r : List Char} (h : noCloseLines l = true)
    (ha : afterNl l = some r) : noCloseLines r = true := by
  simp [noCloseLines] at h ⊢
  exact noCloseTails_afterNl l r h.2 ha

theorem c8_backtick_scan : ∀ (fuel : Nat) (rest : List Char) (acc : List MdTag),
    noCloseLines rest = true → zScan fuel .backtickcode rest acc = acc := by
  intro fuel
  induction fuel with
  | zero => intro rest acc _; rfl
  | succ n ih =>
      intro rest acc h
      simp only [zScan]
      split_ifs with he
      · rfl
      · simp only [regionStep, backtickStep, noCloseLines_btClose h]
        rcases han : afterNl rest with _ | r
        · rfl
        · simp only []
          show zScan n .backtickcode r (acc ++ []) = acc
          rw [List.append_nil]
          exact ih r acc (noCloseLines_afterNl h han)

/-- C8 (confirmed): when the Main table enters a backtick code block (the
four earlier patterns failing, the backtick-fence-opening pattern matching)
and the fence is never closed before end-of-input — the closing pattern
matches at none of the line starts of the remaining input, the only
positions where the backtickcode table tries it — the scan ends with
exactly the records accumulated before the fence opening: no Main-region
record is created from any text after the fence opening, and the records
created before it remain (no rollback). -/
theorem c8_unclosed_fence (fuel : Nat) (l rest : List Char) (acc : List MdTag)
    (hopen : btOpenMatch l = some rest)
    (hmeta : metaOpenMatch l = none) (hv1 : verbatim1Match l = none)
    (hv2 : verbatim2Match l = none) (hfen : fencedOpenMatch l = none)
    (hnc : noCloseLines rest = true) :
    zScan (fuel + 1) .main l acc = acc := by
  have hstep : mainStep l = .cont .backtickcode rest [] := by
    unfold mainStep
    rw [hmeta, hv1, hv2, hfen, hopen]
  have hl : l.isEmpty = false := by
    cases l with
    | nil => simp [btOpenMatch] at hopen
    | cons c t => rfl
  simp only [zScan, hl, Bool.false_eq_true, if_false, regionStep, hstep]
  rw [List.append_nil]
  exact c8_backtick_scan fuel rest acc hnc

/-- C8 witness: a document whose backtick fence is never closed before
end-of-input, although a later line contains mid-line backticks
(`foo \x60\x60\x60` does not close the fence because the closing pattern is
anchored at line start); one record is already in the store and remains,
and no record is created after the fence. -/
theorem c8_unclosed_fence_witness :
    btOpenMatch "```\nfoo ```\nbar\n".toList = some "foo ```\nbar\n".toList ∧
    noCloseLines "foo ```\nbar\n".toList = true ∧
    zScan 21 .main "```\nfoo ```\nbar\n".toList [⟨.wikilink, 0, ['z']⟩] =
      [⟨.wikilink, 0, ['z']⟩] :=
  ⟨by decide, by decide,
    c8_unclosed_fence 20 "```\nfoo ```\nbar\n".toList "foo ```\nbar\n".toList
      [⟨.wikilink, 0, ['z']⟩]
      (by decide) (by decide) (by decide) (by decide) (by decide) (by decide)⟩
